import Mathlib

/-!
Verification of the menu-generation pipeline of `server/index.mjs`
(nutrition-planning app).

Shallow embedding conventions:
* JavaScript numbers are modelled as `ℚ`; `NaN` is modelled by `none` in
  `JsNum := Option ℚ` (all arithmetic the server performs on possibly-NaN
  values is NaN-propagating, which `Option ℚ` captures exactly, and no
  rounding discrepancy between binary floats and rationals affects any of
  the concrete values analysed here).
* Loosely-typed JS values flowing through profile fields are modelled by
  `JsVal` (undefined / finite number / NaN / string), with JS truthiness
  and `Number(·)` coercion.  `Number(string)` is modelled for the decimal
  subset (optional sign, digits, one decimal point); exponents, hex and
  `Infinity` are outside the inputs this server ever feeds it.
* `JSON.parse` is modelled by a fuelled recursive-descent parser over the
  JSON grammar (null / bool / number / string / array / object); `\u`
  escapes are omitted from the modelled string escapes.
* `Math.round x` is `⌊x + 1/2⌋`, i.e. Mathlib's `round` on `ℚ`, which
  agrees with JS on halves (both round half toward `+∞`).
-/

/-- JS number or NaN: `some q` is the finite number `q`, `none` is NaN. -/
abbrev JsNum := Option ℚ

/-- A loosely-typed JS value as it can appear in a request-body profile
field: `undefined`/`null`, a finite number, `NaN`, or a string. -/
inductive JsVal where
  | undef
  | num (q : ℚ)
  | nan
  | str (s : String)
deriving DecidableEq

/-- JS truthiness of a `JsVal` (`undefined`, `0`, `NaN` and `""` are falsy). -/
def JsVal.truthy : JsVal → Bool
  | .undef => false
  | .num q => decide (q ≠ 0)
  | .nan => false
  | .str s => decide (s ≠ "")

/-- `v || d` for a default `d`, as used in `profile.weightKg || 70`. -/
def orDefault (v d : JsVal) : JsVal := if v.truthy then v else d

/-- JS whitespace stripped by `String.prototype.trim` / `Number(string)`
(the subset actually occurring here). -/
def isJsWs (c : Char) : Bool := c == ' ' || c == '\t' || c == '\n' || c == '\r'

/-- Trim leading and trailing whitespace from a character list. -/
def trimWs (cs : List Char) : List Char :=
  ((cs.dropWhile isJsWs).reverse.dropWhile isJsWs).reverse

/-- Digits to a natural number, most significant first. -/
def digitsToNat (cs : List Char) : ℕ :=
  cs.foldl (fun a c => 10 * a + (c.toNat - 48)) 0

/-- Unsigned decimal numeral (`"12"`, `"12.5"`, `".5"`, `"5."`), as accepted
by JS `Number(·)` after the sign; anything else is NaN (`none`). -/
def parseDecimalCore (cs : List Char) : Option ℚ :=
  let intPart := cs.takeWhile Char.isDigit
  let rest := cs.dropWhile Char.isDigit
  match rest with
  | [] => if intPart.isEmpty then none else some (digitsToNat intPart)
  | '.' :: frac =>
      if frac.all Char.isDigit && !(intPart.isEmpty && frac.isEmpty) then
        some ((digitsToNat intPart : ℚ) + (digitsToNat frac : ℚ) / (10 ^ frac.length : ℚ))
      else none
  | _ => none

/-- JS `Number(string)` on the decimal subset: trimmed empty string is `0`,
optional sign, otherwise NaN. -/
def jsStringToNumber (cs : List Char) : JsNum :=
  match trimWs cs with
  | [] => some 0
  | '+' :: rest => parseDecimalCore rest
  | '-' :: rest => (parseDecimalCore rest).map Neg.neg
  | t => parseDecimalCore t

/-- JS `Number(v)` coercion of a `JsVal` (undefined coerces to NaN). -/
def toNumber : JsVal → JsNum
  | .undef => none
  | .num q => some q
  | .nan => none
  | .str s => jsStringToNumber s.toList

/-- JS `Math.round` lifted to possibly-NaN numbers. -/
def jsRound (x : JsNum) : JsNum := x.map (fun q => ((round q : ℤ) : ℚ))

/-- Split a character list on every occurrence of `c`
(mirrors JS `String.prototype.split` with a one-character separator). -/
def splitOnChar (c : Char) : List Char → List (List Char)
  | [] => [[]]
  | x :: xs =>
      let r := splitOnChar c xs
      if x == c then [] :: r
      else
        match r with
        | [] => [[x]]
        | h :: t => (x :: h) :: t

/-- `approximateAge` from `server/index.mjs` (lines 121-133).  The age-range
field is a string or absent; `!ageRange` is falsiness (absent or `""`). -/
def approximateAge : Option String → JsNum
  | none => some 30
  | some s =>
      if s = "" then some 30
      else if s.toList.contains '-' then
        let parts := splitOnChar '-' s.toList
        let fromPart := (parts.get? 0).getD []
        let toPart := (parts.get? 1).getD []
        if toPart = ['+'] then
          match jsStringToNumber fromPart with
          | some f => some (f + 5)
          | none => none
        else
          match jsStringToNumber fromPart, jsStringToNumber toPart with
          | some f, some t => some (((round ((f + t) / 2) : ℤ) : ℚ))
          | _, _ => some 30
      else some 30

/-- `activityFactor` from `server/index.mjs` (lines 135-150). -/
def activityFactor : Option String → ℚ
  | some "Sedentary - 0 hours/week" => 1.2
  | some "Light - 0-1 hour/week" => 1.375
  | some "Moderate - 1-2 hours/week" => 1.55
  | some "Active - 2-4 hours/week" => 1.725
  | some "Very Active - 4+ hours/week" => 1.9
  | _ => 1.4

/-- A profile as read from the request body.  Goal, age range, gender and
activity level are strings or absent; height and weight are arbitrary JS
values (the UI sends numbers, but nothing enforces that server-side). -/
structure Profile where
  goal : Option String
  ageRange : Option String
  gender : Option String
  heightCm : JsVal
  weightKg : JsVal
  activityLevel : Option String
deriving DecidableEq

/-- `const gender = profile.gender || 'Other'` (line 156). -/
def genderOf : Option String → String
  | some s => if s = "" then "Other" else s
  | none => "Other"

/-- The Mifflin-St Jeor branch of `calculateDailyCalories` (lines 158-167):
Male and Female formulas, and their arithmetic mean for any other gender
value. -/
def mifflinBmr (gender : String) (w h a : ℚ) : ℚ :=
  if gender = "Male" then 10 * w + 6.25 * h - 5 * a + 5
  else if gender = "Female" then 10 * w + 6.25 * h - 5 * a - 161
  else ((10 * w + 6.25 * h - 5 * a + 5) + (10 * w + 6.25 * h - 5 * a - 161)) / 2

/-- The goal adjustment of lines 171-172: ×0.8 for "Lose weight", ×1.15
for "Gain weight", unchanged otherwise. -/
def goalAdjust (goal : Option String) (c : ℚ) : ℚ :=
  if goal = some "Lose weight" then c * 0.8
  else if goal = some "Gain weight" then c * 1.15
  else c

/-- `calculateDailyCalories` from `server/index.mjs` (lines 152-175).
NaN-propagation through the BMR arithmetic is captured by the match on the
three possibly-NaN inputs (a NaN weight, height or age makes every branch
NaN, since the formulas use only `+ - *` with finite constants); the goal
conditional of the source selects between mapped options whose payloads
are exactly `goalAdjust`'s branches, so it is applied pointwise under the
same `map`. -/
def calculateDailyCalories (profile : Profile) : JsNum :=
  let age := approximateAge profile.ageRange
  let weight := toNumber (orDefault profile.weightKg (.num 70))
  let height := toNumber (orDefault profile.heightCm (.num 170))
  let gender := genderOf profile.gender
  let bmr : JsNum :=
    match weight, height, age with
    | some w, some h, some a => some (mifflinBmr gender w h a)
    | _, _, _ => none
  let calories := bmr.map (· * activityFactor profile.activityLevel)
  let calories := calories.map (goalAdjust profile.goal)
  jsRound calories

/-- A parsed JSON value, the result type of the modelled `JSON.parse`. -/
inductive Json where
  | null
  | bool (b : Bool)
  | num (q : ℚ)
  | str (s : String)
  | arr (elems : List Json)
  | obj (fields : List (String × Json))

/-- JSON whitespace accepted between tokens by `JSON.parse`. -/
def isJsonWs (c : Char) : Bool := c == ' ' || c == '\t' || c == '\n' || c == '\r'

/-- Drop JSON whitespace. -/
def skipWs (cs : List Char) : List Char := cs.dropWhile isJsonWs

/-- The single-character JSON string escapes (`\u` sequences are outside the
modelled subset). -/
def escChar : Char → Option Char
  | '"' => some '"'
  | '\\' => some '\\'
  | '/' => some '/'
  | 'b' => some (Char.ofNat 8)
  | 'f' => some (Char.ofNat 12)
  | 'n' => some '\n'
  | 'r' => some '\r'
  | 't' => some '\t'
  | _ => none

/-- Body of a JSON string after the opening quote: returns the decoded
characters and the input remaining after the closing quote. -/
def parseStringBody : List Char → Option (List Char × List Char)
  | [] => none
  | '"' :: rest => some ([], rest)
  | '\\' :: e :: rest =>
      match escChar e with
      | some c => (parseStringBody rest).map (fun p => (c :: p.1, p.2))
      | none => none
  | c :: rest => (parseStringBody rest).map (fun p => (c :: p.1, p.2))

/-- Integer part of a JSON number: `0` or a nonzero digit followed by
digits (JSON forbids leading zeros). -/
def parseJsonInt (cs : List Char) : Option (ℕ × List Char) :=
  match cs with
  | '0' :: rest => some (0, rest)
  | c :: _ =>
      if c.isDigit then
        some (digitsToNat (cs.takeWhile Char.isDigit), cs.dropWhile Char.isDigit)
      else none
  | [] => none

/-- Exponent tail of a JSON number after `e`/`E`. -/
def parseExpTail (cs : List Char) : Option (ℤ × List Char) :=
  let signed : Bool × List Char := match cs with
    | '+' :: r => (false, r)
    | '-' :: r => (true, r)
    | _ => (false, cs)
  let ds := signed.2.takeWhile Char.isDigit
  if ds.isEmpty then none
  else
    let e : ℤ := digitsToNat ds
    some (if signed.1 then -e else e, signed.2.dropWhile Char.isDigit)

/-- A JSON number literal (sign, integer part, optional fraction, optional
exponent); returns its exact rational value and the remaining input.  An
integer without fraction or exponent is built by a plain cast so that it is
kernel-computable. -/
def parseJsonNumber (cs : List Char) : Option (ℚ × List Char) :=
  let signed : Bool × List Char := match cs with
    | '-' :: r => (true, r)
    | _ => (false, cs)
  match parseJsonInt signed.2 with
  | none => none
  | some (i, rest1) =>
      let fracPart : Option (List Char × List Char) := match rest1 with
        | '.' :: r =>
            let ds := r.takeWhile Char.isDigit
            if ds.isEmpty then none else some (ds, r.dropWhile Char.isDigit)
        | _ => none
      match rest1, fracPart with
      | '.' :: _, none => none
      | _, _ =>
        let rest2 := match fracPart with
          | some (_, r) => r
          | none => rest1
        let expPart : Option (ℤ × List Char) := match rest2 with
          | 'e' :: r => parseExpTail r
          | 'E' :: r => parseExpTail r
          | _ => none
        match rest2, expPart with
        | 'e' :: _, none => none
        | 'E' :: _, none => none
        | _, _ =>
          let rest3 := match expPart with
            | some (_, r) => r
            | none => rest2
          let mag : ℚ := match fracPart with
            | some (ds, _) => (i : ℚ) + (digitsToNat ds : ℚ) / (10 ^ ds.length : ℚ)
            | none => (i : ℚ)
          let mag : ℚ := match expPart with
            | some (e, _) => mag * (10 : ℚ) ^ e
            | none => mag
          some (if signed.1 then -mag else mag, rest3)


mutual

/-- Fuelled recursive-descent parser for one JSON value (leading whitespace
allowed); returns the value and the unconsumed input. -/
def parseValue : ℕ → List Char → Option (Json × List Char)
  | 0, _ => none
  | fuel + 1, cs =>
      match skipWs cs with
      | 'n' :: 'u' :: 'l' :: 'l' :: r => some (.null, r)
      | 't' :: 'r' :: 'u' :: 'e' :: r => some (.bool true, r)
      | 'f' :: 'a' :: 'l' :: 's' :: 'e' :: r => some (.bool false, r)
      | '"' :: r => (parseStringBody r).map (fun p => (.str (String.mk p.1), p.2))
      | '[' :: r =>
          (match skipWs r with
          | ']' :: r2 => some (.arr [], r2)
          | _ => (parseItems fuel r).map (fun p => (.arr p.1, p.2)))
      | '{' :: r =>
          (match skipWs r with
          | '}' :: r2 => some (.obj [], r2)
          | _ => (parseMembers fuel r).map (fun p => (.obj p.1, p.2)))
      | cs2 => (parseJsonNumber cs2).map (fun p => (.num p.1, p.2))

/-- Comma-separated JSON array elements up to the closing `]`. -/
def parseItems : ℕ → List Char → Option (List Json × List Char)
  | 0, _ => none
  | fuel + 1, cs =>
      match parseValue fuel cs with
      | none => none
      | some (v, r) =>
          match skipWs r with
          | ',' :: r2 => (parseItems fuel r2).map (fun p => (v :: p.1, p.2))
          | ']' :: r2 => some ([v], r2)
          | _ => none

/-- Comma-separated JSON object members up to the closing `}`. -/
def parseMembers : ℕ → List Char → Option (List (String × Json) × List Char)
  | 0, _ => none
  | fuel + 1, cs =>
      match skipWs cs with
      | '"' :: r =>
          (match parseStringBody r with
          | none => none
          | some (key, r2) =>
              match skipWs r2 with
              | ':' :: r3 =>
                  (match parseValue fuel r3 with
                  | none => none
                  | some (v, r4) =>
                      match skipWs r4 with
                      | ',' :: r5 =>
                          (parseMembers fuel r5).map
                            (fun p => ((String.mk key, v) :: p.1, p.2))
                      | '}' :: r5 => some ([(String.mk key, v)], r5)
                      | _ => none)
              | _ => none)
      | _ => none

end

/-- `JSON.parse`: parse one value and require only whitespace after it. -/
def jsonParse (cs : List Char) : Except String Json :=
  match parseValue (4 * cs.length + 4) cs with
  | some (v, rest) =>
      if (skipWs rest).isEmpty then .ok v
      else .error "Unexpected non-whitespace character after JSON data"
  | none => .error "Unexpected token in JSON"

/-- Case-sensitive or case-insensitive prefix test, character by character. -/
def matchesAt (ci : Bool) : List Char → List Char → Bool
  | [], _ => true
  | _ :: _, [] => false
  | p :: ps, c :: cs =>
      (if ci then p.toLower == c.toLower else p == c) && matchesAt ci ps cs

/-- One left-to-right pass removing every non-overlapping occurrence of
`pat` (the semantics of JS `String.prototype.replace` with a global regex
of plain characters and an empty replacement).  `ci` selects the `i` flag. -/
def removeAllSub (ci : Bool) (pat : List Char) : ℕ → List Char → List Char
  | 0, cs => cs
  | _ + 1, [] => []
  | fuel + 1, c :: rest =>
      if matchesAt ci pat (c :: rest) then
        removeAllSub ci pat fuel (List.drop pat.length (c :: rest))
      else c :: removeAllSub ci pat fuel rest

/-- `extractJsonFromText` from `server/index.mjs` (lines 178-190): reject
empty input, strip every occurrence of `` ```json `` (case-insensitively)
and `` ``` ``, trim, slice from the first `{` to the last `}` (failing if
either is absent or the `}` does not come after the `{`), and `JSON.parse`
the slice. -/
def extractJsonFromText (text : String) : Except String Json :=
  if text = "" then .error "AI response is empty or not a string"
  else
    let cs0 := text.toList
    let cs1 := removeAllSub true ("```json".toList) (cs0.length + 1) cs0
    let cleaned := trimWs (removeAllSub false ("```".toList) (cs1.length + 1) cs1)
    match cleaned.findIdx? (· == '{'), cleaned.reverse.findIdx? (· == '}') with
    | some first, some ridx =>
        let last := cleaned.length - 1 - ridx
        if last ≤ first then .error "Could not locate JSON object in AI response"
        else jsonParse ((cleaned.drop first).take (last + 1 - first))
    | _, _ => .error "Could not locate JSON object in AI response"

/-- True exactly on the `Except.error` constructor. -/
def isExtractError : Except String Json → Bool
  | .error _ => true
  | .ok _ => false

/-- JS truthiness of a parsed JSON value (`null`, `false`, `0`, `""` are
falsy; arrays and objects are always truthy). -/
def jsonTruthy : Json → Bool
  | .null => false
  | .bool b => b
  | .num q => decide (q ≠ 0)
  | .str s => decide (s ≠ "")
  | .arr _ => true
  | .obj _ => true

/-- JS property access `j.key` on a parsed JSON value: objects yield the
last binding of the key (as `JSON.parse` keeps the last duplicate), and
any other value yields `undefined` (`none`). -/
def getField (j : Json) (key : String) : Option Json :=
  match j with
  | .obj fields =>
      fields.foldl (fun acc kv => if kv.1 = key then some kv.2 else acc) none
  | _ => none

/-- The validation stage of the handler (`server/index.mjs` lines 474-478):
`if (!parsed || !Array.isArray(parsed.days)) throw ...; days = parsed.days`.
Returns the accepted `days` array, or `none` for the fallback path. -/
def validateDays (parsed : Json) : Option (List Json) :=
  if jsonTruthy parsed then
    match getField parsed "days" with
    | some (Json.arr l) => some l
    | _ => none
  else none

/-- A menu record as persisted in `db.json` by `saveMenu`.  `version` is a
`JsVal` because the provider may supply arbitrary JSON for it; menus written
by this handler always carry a numeric version. -/
structure StoredMenu where
  email : String
  version : JsVal
  dailyCalories : JsNum
  days : List Json
  generatedAt : ℕ
  warning : Option String

/-- The JSON "database": registered user emails and the append-only menu
list. -/
structure Db where
  users : List String
  menus : List StoredMenu

/-- One step of the `reduce` in `getNextMenuVersion`:
`typeof m.version === 'number' && m.version > max ? m.version : max`.
(`NaN` also has `typeof 'number'` but `NaN > max` is false, so mapping the
`nan` case to `max` is equivalent.) -/
def versionStep (mx : ℚ) (m : StoredMenu) : ℚ :=
  match m.version with
  | .num v => if mx < v then v else mx
  | _ => mx

/-- `getNextMenuVersion` from `server/index.mjs` (lines 103-111): filter the
stored menus by email, fold the maximum numeric version starting from 0,
and add 1. -/
def getNextMenuVersion (db : Db) (email : String) : ℚ :=
  ((db.menus.filter (fun m => m.email == email)).foldl versionStep 0) + 1

/-- `getNextMenuVersion` with explicit state passing: the source reads the
store (`readDb`) and never writes it, so the store component is returned
unchanged. -/
def getNextMenuVersionS (db : Db) (email : String) : ℚ × Db :=
  (getNextMenuVersion db email, db)

/-- The hard-coded fallback warning string (`server/index.mjs` lines 485-486). -/
def fallbackWarning : String :=
  "Using fallback menu because Gemini API request failed. Check your GEMINI_API_KEY, model name and quota."

/-- The fixed 2-day fallback menu content (`server/index.mjs` lines 488-554),
as the JSON values the handler assigns to `days`. -/
def fallbackDays : List Json :=
  [Json.obj
    [("dayIndex", Json.num 1),
     ("label", Json.str "Day 1"),
     ("meals", Json.arr
       [Json.obj
         [("type", Json.str "Breakfast"),
          ("name", Json.str "Oatmeal with berries"),
          ("description", Json.str "Wholegrain oats with milk and frozen berries."),
          ("calories", Json.num 400)],
        Json.obj
         [("type", Json.str "Lunch"),
          ("name", Json.str "Grilled chicken salad"),
          ("description", Json.str "Chicken breast with mixed salad and olive oil."),
          ("calories", Json.num 550)],
        Json.obj
         [("type", Json.str "Dinner"),
          ("name", Json.str "Salmon with vegetables"),
          ("description", Json.str "Baked salmon with broccoli and potatoes."),
          ("calories", Json.num 650)]]),
     ("shoppingItems", Json.arr
       [Json.obj [("product", Json.str "Oats"), ("quantity", Json.str "500 g")],
        Json.obj [("product", Json.str "Milk"), ("quantity", Json.str "1 L")],
        Json.obj [("product", Json.str "Chicken breast"), ("quantity", Json.str "300 g")],
        Json.obj [("product", Json.str "Mixed salad"), ("quantity", Json.str "1 pack")],
        Json.obj [("product", Json.str "Salmon fillet"), ("quantity", Json.str "300 g")],
        Json.obj [("product", Json.str "Broccoli"), ("quantity", Json.str "400 g")]])],
   Json.obj
    [("dayIndex", Json.num 2),
     ("label", Json.str "Day 2"),
     ("meals", Json.arr
       [Json.obj
         [("type", Json.str "Breakfast"),
          ("name", Json.str "Greek yogurt with granola"),
          ("description", Json.str "Low-fat yogurt with granola and banana."),
          ("calories", Json.num 400)],
        Json.obj
         [("type", Json.str "Lunch"),
          ("name", Json.str "Turkey wrap with veggies"),
          ("description", Json.str "Tortilla wrap with turkey and vegetables."),
          ("calories", Json.num 550)],
        Json.obj
         [("type", Json.str "Dinner"),
          ("name", Json.str "Stir-fried tofu with rice"),
          ("description", Json.str "Tofu with vegetables and brown rice."),
          ("calories", Json.num 650)]]),
     ("shoppingItems", Json.arr
       [Json.obj [("product", Json.str "Greek yogurt"), ("quantity", Json.str "500 g")],
        Json.obj [("product", Json.str "Granola"), ("quantity", Json.str "200 g")],
        Json.obj [("product", Json.str "Banana"), ("quantity", Json.str "3 pcs")],
        Json.obj [("product", Json.str "Turkey slices"), ("quantity", Json.str "200 g")],
        Json.obj [("product", Json.str "Tortillas"), ("quantity", Json.str "4 pcs")],
        Json.obj [("product", Json.str "Tofu"), ("quantity", Json.str "200 g")],
        Json.obj [("product", Json.str "Brown rice"), ("quantity", Json.str "500 g")]])]]

/-- Outcome of the generative-provider call as seen by the handler:
the client object is absent (`ai === null`), the awaited call throws, or it
returns a response whose `.text` is a string or undefined. -/
inductive ProviderOutcome where
  | notConfigured
  | failure
  | success (rawText : Option String)
deriving DecidableEq

/-- The provider-path attempt (`server/index.mjs` lines 472-481): extract
JSON from the raw text, validate `days`, and read an optional numeric
`version` override.  `none` means the handler falls back. -/
def attemptProvider (raw : String) : Option (List Json × Option ℚ) :=
  match extractJsonFromText raw with
  | .error _ => none
  | .ok parsed =>
      match validateDays parsed with
      | some days =>
          some (days,
            match getField parsed "version" with
            | some (Json.num q) => some q
            | _ => none)
      | none => none

/-- The client view of a persisted menu: every field except the owning
email (`const \x7b email: _ignored, ...clientMenu \x7d = menu`). -/
structure ClientMenu where
  version : JsVal
  dailyCalories : JsNum
  days : List Json
  generatedAt : ℕ
  warning : Option String

/-- Strip the owning email from a stored menu. -/
def clientView (m : StoredMenu) : ClientMenu :=
  { version := m.version, dailyCalories := m.dailyCalories, days := m.days,
    generatedAt := m.generatedAt, warning := m.warning }

/-- An HTTP response of the generate-weekly-menu endpoint: the JSON client
menu, or an error status with its `error` message. -/
inductive ApiResponse where
  | ok (menu : ClientMenu)
  | err (status : ℕ) (message : String)

/-- Assemble the menu record exactly as lines 557-564 do (`warning` is only
attached when set). -/
def mkMenu (email : String) (v : ℚ) (cal : JsNum) (days : List Json)
    (now : ℕ) (warning : Option String) : StoredMenu :=
  { email := email, version := JsVal.num v, dailyCalories := cal,
    days := days, generatedAt := now, warning := warning }

/-- The `POST /api/generate-weekly-menu` handler (`server/index.mjs` lines
367-582) as a state transformer on the store.  The provider call and the
current time are inputs.  Key point mirrored from the source: the
`if (!ai) throw` sits before the inner `try`, so its exception reaches the
outer catch and produces a 500 response with nothing persisted; every
failure inside the inner `try` instead selects the fallback days and
warning.  The fire-and-forget email step does not touch the store or the
response and is not modelled. -/
def generateWeeklyMenu (db : Db) (email : String) (profile? : Option Profile)
    (provider : ProviderOutcome) (now : ℕ) : ApiResponse × Db :=
  if email = "" then (.err 400 "Email and profile are required.", db)
  else
    match profile? with
    | none => (.err 400 "Email and profile are required.", db)
    | some profile =>
        if !(db.users.contains email) then (.err 404 "User not found.", db)
        else
          let dailyCalories := calculateDailyCalories profile
          let version := getNextMenuVersion db email
          match provider with
          | .notConfigured => (.err 500 "Server error generating weekly menu.", db)
          | .failure =>
              let menu := mkMenu email version dailyCalories fallbackDays now
                (some fallbackWarning)
              (.ok (clientView menu), { db with menus := db.menus ++ [menu] })
          | .success rawText =>
              match attemptProvider (rawText.getD "") with
              | some (days, vOpt) =>
                  let menu := mkMenu email (vOpt.getD version) dailyCalories days now none
                  (.ok (clientView menu), { db with menus := db.menus ++ [menu] })
              | none =>
                  let menu := mkMenu email version dailyCalories fallbackDays now
                    (some fallbackWarning)
                  (.ok (clientView menu), { db with menus := db.menus ++ [menu] })

/-- The numeric `version` field the provider response carries into
`finalVersion`, if any (the override on lines 479-481). -/
def providerVersionOverride : ProviderOutcome → Option ℚ
  | .success rawText => (attemptProvider (rawText.getD "")).bind (fun p => p.2)
  | _ => none

/-- A registered user key used in the concrete scenarios. -/
def userEmail : String := "u@example.com"

/-- The profile of end-to-end scenario A. -/
def profileA : Profile :=
  ⟨some "Lose weight", some "25-34", some "Male", .num 180, .num 80,
    some "Moderate - 1-2 hours/week"⟩

/-- A store with one registered user and no menus. -/
def dbFresh : Db := ⟨[userEmail], []⟩

/-- A previously persisted menu with version 5. -/
def menuV5 : StoredMenu := ⟨userEmail, .num 5, some 2000, [], 0, none⟩

/-- A store whose only menu for the user has version 5. -/
def dbV5 : Db := ⟨[userEmail], [menuV5]⟩

/-- A previously persisted menu with version -5 (reachable because the
provider's numeric `version` field overrides the sequencer). -/
def menuVNeg : StoredMenu := ⟨userEmail, .num (-5), some 2000, [], 0, none⟩

/-- A store whose only menu for the user has version -5. -/
def dbVNeg : Db := ⟨[userEmail], [menuVNeg]⟩

/-- A provider response carrying its own `version: 1` and an empty `days`
array. -/
def overrideText : String := "\x7b\"version\":1,\"days\":[]\x7d"


/-- `versionStep` never decreases the accumulator. -/
theorem versionStep_ge (a : ℚ) (m : StoredMenu) : a ≤ versionStep a m := by
  unfold versionStep
  cases m.version with
  | num v =>
      simp only
      split_ifs with h1
      · exact le_of_lt h1
      · exact le_refl a
  | undef => exact le_refl a
  | nan => exact le_refl a
  | str s => exact le_refl a

/-- The fold of `versionStep` never goes below its starting accumulator. -/
theorem foldl_versionStep_ge (l : List StoredMenu) (a : ℚ) :
    a ≤ l.foldl versionStep a := by
  induction l generalizing a with
  | nil => exact le_refl a
  | cons m t ih =>
      exact le_trans (versionStep_ge a m) (ih (versionStep a m))

/-- A numeric version bounds `versionStep` from below. -/
theorem versionStep_le_of_num (a : ℚ) (m : StoredMenu) (v : ℚ)
    (h : m.version = JsVal.num v) : v ≤ versionStep a m := by
  unfold versionStep
  rw [h]
  simp only
  split_ifs with h1
  · exact le_refl v
  · exact le_of_not_lt h1

/-- Every numeric version of a list member is bounded by the fold. -/
theorem mem_version_le_foldl (l : List StoredMenu) (a : ℚ) (m : StoredMenu)
    (hm : m ∈ l) (v : ℚ) (hv : m.version = JsVal.num v) :
    v ≤ l.foldl versionStep a := by
  induction l generalizing a with
  | nil => cases hm
  | cons x t ih =>
      rcases List.mem_cons.mp hm with h | h
      · subst h
        exact le_trans (versionStep_le_of_num a m v hv) (foldl_versionStep_ge t _)
      · exact ih (versionStep a x) h

/-- `versionStep` either keeps the accumulator or returns the member's own
numeric version. -/
theorem versionStep_cases (a : ℚ) (m : StoredMenu) :
    versionStep a m = a ∨ m.version = JsVal.num (versionStep a m) := by
  unfold versionStep
  cases h : m.version with
  | num v =>
      simp only
      split_ifs with h1
      · right ; rfl
      · left ; rfl
  | undef => left ; rfl
  | nan => left ; rfl
  | str s => left ; rfl

/-- The fold of `versionStep` is the starting accumulator or the numeric
version of some list member. -/
theorem foldl_versionStep_eq_or_mem (l : List StoredMenu) (a : ℚ) :
    l.foldl versionStep a = a ∨
      ∃ m ∈ l, m.version = JsVal.num (l.foldl versionStep a) := by
  induction l generalizing a with
  | nil => left ; rfl
  | cons x t ih =>
      have hfold : (x :: t).foldl versionStep a = t.foldl versionStep (versionStep a x) :=
        rfl
      rcases ih (versionStep a x) with h | ⟨m, hm, hv⟩
      · rcases versionStep_cases a x with h2 | h2
        · left ; rw [hfold, h, h2]
        · right
          exact ⟨x, List.mem_cons_self x t, by rw [hfold, h] ; exact h2⟩
      · right
        exact ⟨m, List.mem_cons_of_mem x hm, by rw [hfold] ; exact hv⟩

/-- `activityFactor` is always at least 1.2. -/
theorem activityFactor_ge (l : Option String) : (6/5 : ℚ) ≤ activityFactor l := by
  unfold activityFactor
  split <;> norm_num

/-- Rounding a rational that is at least 1 gives a positive integer. -/
theorem one_le_round_of_one_le (q : ℚ) (h : 1 ≤ q) : 1 ≤ round q := by
  rw [round_eq]
  refine Int.le_floor.mpr ?_
  push_cast
  linarith

/-- Lower bound for the three-factor calorie product. -/
theorem one_le_cal3 (B f g : ℚ) (hB : 589 ≤ B) (hf : 6/5 ≤ f) (hg : 4/5 ≤ g) :
    1 ≤ B * f * g := by
  have h1 : 589 * (6/5) ≤ B * f := by nlinarith
  have h2 : 589 * (6/5) * (4/5) ≤ B * f * g := by nlinarith
  linarith

/-- Lower bound for the two-factor calorie product. -/
theorem one_le_cal2 (B f : ℚ) (hB : 589 ≤ B) (hf : 6/5 ≤ f) : 1 ≤ B * f := by
  nlinarith

/-- Every numeric version previously persisted for a user is strictly below
the sequencer's next version for that user. -/
theorem prior_version_lt_next (db : Db) (email : String) (m : StoredMenu)
    (hm : m ∈ db.menus) (he : m.email = email) (v : ℚ)
    (hv : m.version = JsVal.num v) : v < getNextMenuVersion db email := by
  have hmf : m ∈ db.menus.filter (fun x => x.email == email) :=
    List.mem_filter.mpr ⟨hm, by simp [he]⟩
  have hle : v ≤ (db.menus.filter (fun x => x.email == email)).foldl versionStep 0 :=
    mem_version_le_foldl _ 0 m hmf v hv
  unfold getNextMenuVersion
  linarith

/-- C1: evaluating the handler at the failing input.  With the provider
unconfigured (`ai === null`) and a registered user, the request is answered
with HTTP 500 `"Server error generating weekly menu."` and nothing is
persisted — the `throw` sits before the inner try/catch, so the fallback
menu promised by the claim (and by the startup warning that AI calls "will
fall back to a static menu") is never produced. -/
theorem c1_not_configured_returns_500 :
    generateWeeklyMenu dbFresh userEmail (some profileA) .notConfigured 0
      = (.err 500 "Server error generating weekly menu.", dbFresh) := rfl

/-- C2 counterexample: starting from a store whose only menu for the user
has version 5, a provider response carrying `version: 1` with a valid
(empty) `days` array persists a new menu whose version 1 is not greater
than the previously persisted version 5. -/
theorem c2_override_breaks_monotonicity :
    ((generateWeeklyMenu dbV5 userEmail (some profileA)
        (.success (some overrideText)) 1).2.menus.map (fun m => m.version))
      = [JsVal.num 5, JsVal.num 1] ∧ ¬ ((5 : ℚ) < 1) :=
  ⟨rfl, by norm_num⟩

/-- C2 (amended): whenever the provider path does not deliver a numeric
`version` override (fallback path, or provider output without a numeric
`version` field), the persisted menu carries the sequencer's next version,
which is strictly greater than every numeric version previously persisted
for that user. -/
theorem c2_version_strictly_increases_without_override
    (db : Db) (email : String) (p : Profile) (provider : ProviderOutcome) (now : ℕ)
    (hne : email ≠ "") (hu : db.users.contains email = true)
    (hnc : provider ≠ .notConfigured)
    (hov : providerVersionOverride provider = none) :
    ∃ m : StoredMenu,
      (generateWeeklyMenu db email (some p) provider now).2.menus = db.menus ++ [m] ∧
      m.version = JsVal.num (getNextMenuVersion db email) ∧
      ∀ m' ∈ db.menus, m'.email = email → ∀ v : ℚ,
        m'.version = JsVal.num v → v < getNextMenuVersion db email := by
  have hprior : ∀ m' ∈ db.menus, m'.email = email → ∀ v : ℚ,
      m'.version = JsVal.num v → v < getNextMenuVersion db email :=
    fun m' hm' he v hv => prior_version_lt_next db email m' hm' he v hv
  simp only [generateWeeklyMenu, if_neg hne, hu, Bool.not_true, Bool.false_eq_true,
    if_false]
  cases provider with
  | notConfigured => exact absurd rfl hnc
  | failure =>
      exact ⟨mkMenu email (getNextMenuVersion db email) (calculateDailyCalories p)
        fallbackDays now (some fallbackWarning), rfl, rfl, hprior⟩
  | success rawText =>
      cases hatt : attemptProvider (rawText.getD "") with
      | none =>
          simp only [hatt]
          exact ⟨mkMenu email (getNextMenuVersion db email) (calculateDailyCalories p)
            fallbackDays now (some fallbackWarning), rfl, rfl, hprior⟩
      | some pr =>
          have hv : pr.2 = none := by
            have h2 : providerVersionOverride (.success rawText) = pr.2 := by
              simp only [providerVersionOverride, hatt, Option.some_bind]
            rw [← h2, hov]
          simp only [hatt, hv]
          exact ⟨mkMenu email ((none : Option ℚ).getD (getNextMenuVersion db email))
            (calculateDailyCalories p) pr.1 now none, rfl, rfl, hprior⟩

/-- C2 witness: the amended theorem applied to the concrete fresh store and
a failing provider call. -/
theorem c2_version_witness :
    ∃ m : StoredMenu,
      (generateWeeklyMenu dbFresh userEmail (some profileA) .failure 0).2.menus
        = dbFresh.menus ++ [m] ∧
      m.version = JsVal.num (getNextMenuVersion dbFresh userEmail) ∧
      ∀ m' ∈ dbFresh.menus, m'.email = userEmail → ∀ v : ℚ,
        m'.version = JsVal.num v → v < getNextMenuVersion dbFresh userEmail :=
  c2_version_strictly_increases_without_override dbFresh userEmail profileA .failure 0
    (by decide) (by decide) (by decide) rfl

/-- C3 counterexample: a fallback-path run (provider call throws) persists
a menu whose `days` has exactly 2 entries, not 7. -/
theorem c3_fallback_persists_two_days :
    ((generateWeeklyMenu dbFresh userEmail (some profileA)
        .failure 0).2.menus.map (fun m => m.days.length)) = [2] ∧ (2 : ℕ) ≠ 7 :=
  ⟨rfl, by decide⟩

/-- C3 (amended): every persisted menu's `days` are exactly the fixed 2-day
fallback content on the fallback path, and exactly the provider's validated
`days` array — of whatever length, since only `Array.isArray` is checked —
on the success path.  The 7-day shape is requested in the prompt but never
enforced. -/
theorem c3_persisted_days_shape
    (db : Db) (email : String) (p : Profile) (now : ℕ)
    (hne : email ≠ "") (hu : db.users.contains email = true) :
    (∃ m : StoredMenu,
        (generateWeeklyMenu db email (some p) .failure now).2.menus = db.menus ++ [m] ∧
        m.days = fallbackDays ∧ m.days.length = 2) ∧
    (∀ raw days vOpt, attemptProvider raw = some (days, vOpt) →
        ∃ m : StoredMenu,
          (generateWeeklyMenu db email (some p) (.success (some raw)) now).2.menus
            = db.menus ++ [m] ∧ m.days = days) := by
  constructor
  · simp only [generateWeeklyMenu, if_neg hne, hu, Bool.not_true, Bool.false_eq_true,
      if_false]
    exact ⟨mkMenu email (getNextMenuVersion db email) (calculateDailyCalories p)
      fallbackDays now (some fallbackWarning), rfl, rfl, rfl⟩
  · intro raw days vOpt hatt
    simp only [generateWeeklyMenu, if_neg hne, hu, Bool.not_true, Bool.false_eq_true,
      if_false, Option.getD_some, hatt]
    exact ⟨mkMenu email (vOpt.getD (getNextMenuVersion db email))
      (calculateDailyCalories p) days now none, rfl, rfl⟩

/-- C3 witness: the amended theorem at the concrete fresh store, with the
success conjunct instantiated on a provider response whose `days` array has
one element. -/
theorem c3_persisted_days_witness :
    (∃ m : StoredMenu,
        (generateWeeklyMenu dbFresh userEmail (some profileA) .failure 0).2.menus
          = dbFresh.menus ++ [m] ∧ m.days = fallbackDays ∧ m.days.length = 2) ∧
    (∃ m : StoredMenu,
        (generateWeeklyMenu dbFresh userEmail (some profileA)
            (.success (some "\x7b\"days\":[4]\x7d")) 0).2.menus
          = dbFresh.menus ++ [m] ∧ m.days = [Json.num 4]) :=
  ⟨(c3_persisted_days_shape dbFresh userEmail profileA 0 (by decide) (by decide)).1,
    (c3_persisted_days_shape dbFresh userEmail profileA 0 (by decide) (by decide)).2
      "\x7b\"days\":[4]\x7d" [Json.num 4] none rfl⟩

/-- C4: evaluating `approximateAge` at the failing input.  The UI's
unbounded bucket is the string `"65+"`, which contains no `-`, so the
`to === '+'` branch meant for it is unreachable and the function returns
the default 30 instead of 65 + 5 = 70.  The third conjunct shows the
intended branch does exist but only fires on a `"65-+"`-shaped string. -/
theorem c4_sixty_five_plus_resolves_to_thirty :
    approximateAge (some "65+") = some 30 ∧ (30 : ℚ) ≠ 65 + 5 ∧
      approximateAge (some "65-+") = some 70 := by
  refine ⟨by decide, by norm_num, ?_⟩
  have h : approximateAge (some "65-+") = some ((65 : ℚ) + 5) := rfl
  rw [h] ; norm_num

/-- C5 counterexample: the scenario-A profile yields a calorie target of
2207, not (approximately) 2270 — the spec's intermediate value 1830.5 is an
arithmetic slip, the Mifflin-St Jeor BMR being 10·80 + 6.25·180 − 5·30 + 5
= 1780. -/
theorem c5_scenario_a_not_2270 :
    calculateDailyCalories profileA = some 2207 ∧ (2207 : ℚ) ≠ 2270 := by
  constructor
  · have h : calculateDailyCalories profileA
        = some (((round (((10 * (80 : ℚ) + 6.25 * 180
            - 5 * ((round (((25 : ℚ) + 34) / 2) : ℤ) : ℚ) + 5) * 1.55) * 0.8) : ℤ) : ℚ)) :=
      rfl
    rw [h]
    have h2 : round (((25 : ℚ) + 34) / 2) = 30 := by norm_num [round_eq]
    rw [h2] ; norm_num [round_eq]
  · norm_num

/-- C5 (amended): for the scenario-A profile the computed target is 2207 =
round((10·80 + 6.25·180 − 5·30 + 5) × 1.55 × 0.8), the rounded Mifflin-St
Jeor BMR times the activity factor 1.55 times the goal factor 0.8. -/
theorem c5_scenario_a_target :
    calculateDailyCalories profileA = some 2207 ∧
      round (((10 * (80 : ℚ) + 6.25 * 180 - 5 * 30 + 5) * 1.55) * 0.8) = 2207 := by
  constructor
  · have h : calculateDailyCalories profileA
        = some (((round (((10 * (80 : ℚ) + 6.25 * 180
            - 5 * ((round (((25 : ℚ) + 34) / 2) : ℤ) : ℚ) + 5) * 1.55) * 0.8) : ℤ) : ℚ)) :=
      rfl
    rw [h]
    have h2 : round (((25 : ℚ) + 34) / 2) = 30 := by norm_num [round_eq]
    rw [h2] ; norm_num [round_eq]
  · norm_num [round_eq]


/-- The Mifflin-St Jeor BMR is at least 589 kcal on the bounded domain,
whatever the gender string. -/
theorem mifflinBmr_ge (g : String) (w h a : ℚ)
    (hw1 : 30 ≤ w) (hh1 : 120 ≤ h) (ha1 : a ≤ 60) : 589 ≤ mifflinBmr g w h a := by
  unfold mifflinBmr
  split_ifs <;> linarith

/-- The goal adjustment keeps a large positive input at least 1, whatever
the goal value. -/
theorem one_le_goalAdjust (goal : Option String) (c : ℚ)
    (hc : 589 * (6/5) ≤ c) : 1 ≤ goalAdjust goal c := by
  unfold goalAdjust
  split_ifs <;> nlinarith

/-- C6 counterexample: a present but non-numeric string weight is truthy, so
it does not degrade to the default 70 kg; `Number("abc")` is NaN and the
computation returns NaN (`none` in the model) — not a positive integer —
whereas a genuinely absent weight (second conjunct) does produce a number. -/
theorem c6_malformed_weight_yields_nan :
    calculateDailyCalories ⟨none, none, none, JsVal.undef, JsVal.str "abc", none⟩
        = none ∧
    (calculateDailyCalories ⟨none, none, none, JsVal.undef, JsVal.undef, none⟩).isSome
        = true :=
  ⟨rfl, rfl⟩

/-- C6 (amended): whenever the resolved weight, height and approximate age
are actual numbers with weight ≥ 30 kg, height ≥ 120 cm and age ≤ 60 years
(which covers every profile built from the UI's option lists, including
absent fields and unparsable strings that hit the documented defaults), the
calorie computation returns a positive integer, for arbitrary goal, gender
and activity-level values.  A present non-numeric weight or height, however,
yields NaN rather than the default (see the counterexample), so the claim's
"every profile" quantification fails. -/
theorem c6_resolved_profile_positive (p : Profile) (w h a : ℚ)
    (hw : toNumber (orDefault p.weightKg (JsVal.num 70)) = some w)
    (hh : toNumber (orDefault p.heightCm (JsVal.num 170)) = some h)
    (ha : approximateAge p.ageRange = some a)
    (hw1 : 30 ≤ w) (hh1 : 120 ≤ h) (ha1 : a ≤ 60) :
    ∃ n : ℤ, calculateDailyCalories p = some ((n : ℚ)) ∧ 0 < n := by
  have haf := activityFactor_ge p.activityLevel
  have hB : 589 ≤ mifflinBmr (genderOf p.gender) w h a :=
    mifflinBmr_ge (genderOf p.gender) w h a hw1 hh1 ha1
  have hBf : 589 * (6/5)
      ≤ mifflinBmr (genderOf p.gender) w h a * activityFactor p.activityLevel := by
    nlinarith
  have h1 : 1 ≤ goalAdjust p.goal
      (mifflinBmr (genderOf p.gender) w h a * activityFactor p.activityLevel) :=
    one_le_goalAdjust p.goal _ hBf
  refine ⟨round (goalAdjust p.goal
      (mifflinBmr (genderOf p.gender) w h a * activityFactor p.activityLevel)), ?_, ?_⟩
  · simp only [calculateDailyCalories, hw, hh, ha]
    rfl
  · have h2 := one_le_round_of_one_le _ h1
    omega

/-- C6 witness: the amended theorem at the all-defaults profile (absent
goal, age range, gender, height, weight and activity level). -/
theorem c6_resolved_profile_witness :
    ∃ n : ℤ,
      calculateDailyCalories ⟨none, none, none, JsVal.undef, JsVal.undef, none⟩
        = some ((n : ℚ)) ∧ 0 < n :=
  c6_resolved_profile_positive ⟨none, none, none, JsVal.undef, JsVal.undef, none⟩
    70 170 30 rfl rfl rfl (by norm_num) (by norm_num) (by norm_num)

/-- C7: the extractor strips fences and slices from the first `\x7b` to the
last `\x7d`.  A fenced `\x7b"days":[]\x7d` round-trips to the object; text
without braces fails; a closing brace only before the opening brace fails;
and `prefix \x7b"a":1\x7d suffix \x7b"b":2\x7d` fails because the slice
from the first `\x7b` to the last `\x7d` is not valid JSON. -/
theorem c7_extractor_examples :
    extractJsonFromText "```json\n\x7b\"days\":[]\x7d\n```"
        = Except.ok (Json.obj [("days", Json.arr [])]) ∧
    isExtractError (extractJsonFromText "no json payload here") = true ∧
    isExtractError (extractJsonFromText "\x7d before \x7b") = true ∧
    isExtractError
        (extractJsonFromText "prefix \x7b\"a\":1\x7d suffix \x7b\"b\":2\x7d")
      = true :=
  ⟨rfl, rfl, rfl, rfl⟩

/-- C8: on a successfully extracted object, the validation stage accepts
exactly when the `days` field holds an array — in which case the menu days
are that array, whatever the other fields look like — and forces the
fallback path otherwise. -/
theorem c8_days_array_sole_gate (fields : List (String × Json)) :
    (∀ l, getField (Json.obj fields) "days" = some (Json.arr l) →
        validateDays (Json.obj fields) = some l) ∧
    ((∀ l, getField (Json.obj fields) "days" ≠ some (Json.arr l)) →
        validateDays (Json.obj fields) = none) := by
  constructor
  · intro l hl
    simp only [validateDays, jsonTruthy, if_true, hl]
  · intro hno
    simp only [validateDays, jsonTruthy, if_true]

/-- C8 witness: an object with a well-formed `days` array and an unrelated
junk field is accepted, and its days are exactly the array. -/
theorem c8_days_array_witness :
    validateDays (Json.obj [("days", Json.arr []), ("junk", Json.num 3)]) = some [] :=
  (c8_days_array_sole_gate [("days", Json.arr []), ("junk", Json.num 3)]).1 [] rfl

/-- C9 counterexample: with one stored menu of numeric version -5 for the
user, the sequencer returns 1, not the claimed maximum-plus-one -5 + 1 = -4
(a non-positive stored version is reachable because the provider's numeric
`version` field overrides the sequencer on persist). -/
theorem c9_negative_stored_version :
    getNextMenuVersion dbVNeg userEmail = 1 ∧
    (dbVNeg.menus.filter (fun m => m.email == userEmail)).length = 1 ∧
    menuVNeg.version = JsVal.num (-5) ∧ (1 : ℚ) ≠ -5 + 1 := by
  refine ⟨?_, rfl, rfl, by norm_num⟩
  have h : getNextMenuVersion dbVNeg userEmail = (0 : ℚ) + 1 := rfl
  rw [h] ; norm_num

/-- C9 (amended): the sequencer returns 1 for a user with no stored menus;
its result is strictly greater than every numeric stored version for the
user; it equals one plus either 0 or some stored numeric version for that
user (so it is `max(0, numeric versions) + 1`); and it is a pure read — the
store comes back unchanged and an immediate second call returns the same
value. -/
theorem c9_sequencer_next_version (db : Db) (email : String) :
    ((db.menus.filter (fun m => m.email == email)) = [] →
        getNextMenuVersion db email = 1) ∧
    (∀ m ∈ db.menus, m.email = email → ∀ v : ℚ,
        m.version = JsVal.num v → v < getNextMenuVersion db email) ∧
    (getNextMenuVersion db email = 1 ∨
      ∃ m ∈ db.menus, m.email = email ∧
        m.version = JsVal.num (getNextMenuVersion db email - 1)) ∧
    ((getNextMenuVersionS db email).2 = db ∧
      (getNextMenuVersionS ((getNextMenuVersionS db email).2) email).1
        = (getNextMenuVersionS db email).1) := by
  refine ⟨?_, ?_, ?_, rfl, rfl⟩
  · intro hempty
    unfold getNextMenuVersion
    rw [hempty]
    norm_num
  · exact fun m hm he v hv => prior_version_lt_next db email m hm he v hv
  · have hsplit := foldl_versionStep_eq_or_mem
      (db.menus.filter (fun m => m.email == email)) 0
    have hnext : (db.menus.filter (fun m => m.email == email)).foldl versionStep 0
        = getNextMenuVersion db email - 1 := by
      unfold getNextMenuVersion ; ring
    rcases hsplit with h | ⟨m, hm, hv⟩
    · left
      unfold getNextMenuVersion
      rw [h]
      norm_num
    · right
      refine ⟨m, (List.mem_filter.mp hm).1, ?_, ?_⟩
      · have hb := (List.mem_filter.mp hm).2
        exact eq_of_beq hb
      · rw [hnext] at hv
        exact hv

/-- C9 witness: the amended theorem's first conjunct at the fresh store —
no prior menus, so the sequencer's next version is 1. -/
theorem c9_sequencer_witness : getNextMenuVersion dbFresh userEmail = 1 :=
  (c9_sequencer_next_version dbFresh userEmail).1 rfl

/-- C10: the fence-stripping pass deletes the substring ``` everywhere,
including inside JSON string literals: on an input whose only string value
is literally `x```y`, extraction succeeds and returns the value `xy`, which
differs from the value present in the input text. -/
theorem c10_backticks_removed_inside_strings :
    extractJsonFromText "\x7b\"a\":\"x```y\"\x7d"
        = Except.ok (Json.obj [("a", Json.str "xy")]) ∧
    ("x```y" : String) ≠ "xy" :=
  ⟨rfl, by decide⟩
